import Mathlib

/-!
Verification of the VPSentinel agent's core components against its
specification. The Go sources are shallowly embedded: strings are `List Char`,
machine integers are `Nat`/`Int`, fallible operations return `Option`/`Except`,
and operations that consult the operating system (file reads, process
execution, HTTP requests, TLS handshakes) take the environment's answers as
explicit function parameters. Go's regexp replacements are embedded as
executable scanners specialised to the exact patterns of the source
(case-insensitive matching is modelled over ASCII, which covers every literal
the source patterns use).
-/

namespace VPS

/-! ## Basic character and list utilities -/

/-- The characters Go's regexp class `\s` matches. -/
def goSpace (c : Char) : Bool :=
  c = ' ' || c = '\t' || c = '\n' || c = '\r' || c = '\x0c'

/-- ASCII upper-case of a lower-case letter, identity otherwise;
used to model case-insensitive (`(?i)`) matching of the sources' ASCII literals. -/
def upAZ (c : Char) : Char :=
  if 'a' ≤ c ∧ c ≤ 'z' then Char.ofNat (c.toNat - 32) else c

/-- ASCII lower-case of an upper-case letter, identity otherwise;
models Go's `strings.ToLower` on the ASCII content the claims concern. -/
def lcAZ (c : Char) : Char :=
  if 'A' ≤ c ∧ c ≤ 'Z' then Char.ofNat (c.toNat + 32) else c

/-- Case-insensitive comparison of an input character `c` against a
pattern-literal character `l` (the source literals are lower-case ASCII). -/
def ciEqL (c l : Char) : Bool := c = l || c = upAZ l

/-- String literals of the sources as character lists. -/
def str (s : String) : List Char := s.toList

/-- Decimal digit test (Go regexp `\d` over ASCII). -/
def isDigitC (c : Char) : Bool := '0' ≤ c && c ≤ '9'

/-- `strconv.Atoi` on a run of decimal digits. -/
def digitsToNat (ds : List Char) : Nat :=
  ds.foldl (fun a c => a * 10 + (c.toNat - 48)) 0

/-- Go `strings.Contains` (does `s` contain `pat` as a contiguous substring). -/
def hasSub (pat : List Char) : List Char → Bool
  | [] => pat.isPrefixOf []
  | c :: cs => pat.isPrefixOf (c :: cs) || hasSub pat cs

/-- Go `strings.ToLower`, modelled over ASCII. -/
def toLowerL (s : List Char) : List Char := s.map lcAZ

/-- Go `strings.HasPrefix`. -/
def startsWith (pat s : List Char) : Bool := pat.isPrefixOf s

/-- Go `strings.TrimPrefix`. -/
def trimPfx (pat s : List Char) : List Char :=
  if pat.isPrefixOf s then s.drop pat.length else s

/-- Go `strings.TrimSuffix`. -/
def trimSfx (pat s : List Char) : List Char :=
  if pat.isSuffixOf s then s.take (s.length - pat.length) else s

/-- Go `strings.TrimSpace` (ASCII whitespace). -/
def trimSpace (s : List Char) : List Char :=
  ((s.dropWhile goSpace).reverse.dropWhile goSpace).reverse

/-- Split a character list at every occurrence of `sep` (Go `strings.Split`). -/
def splitOnChar (sep : Char) : List Char → List (List Char)
  | [] => [[]]
  | c :: cs =>
    let r := splitOnChar sep cs
    if c = sep then [] :: r
    else match r with
      | [] => [[c]]
      | h :: t => (c :: h) :: t

/-- The lines `bufio.Scanner` yields from raw file content: split on newlines,
with a trailing newline producing no extra empty line and empty content
producing no lines. -/
def scanLines (content : List Char) : List (List Char) :=
  if content = [] then []
  else
    let parts := splitOnChar '\n' content
    if parts.getLast? = some [] then parts.dropLast else parts

/-! ## Delivery Client (`transport` package)

`Send` retries `sendRequest` up to `maxRetries` times with a backoff delay,
stopping early on success or on a 401/403 HTTP error. The outcome of each
individual HTTP attempt is supplied by the environment as a function from the
attempt's index (0-based) to `Option AttemptErr` (`none` = 2xx success). -/

/-- A failed `sendRequest`: either a non-2xx HTTP status or a network error. -/
inductive AttemptErr where
  | http (code : Nat)
  | net
  deriving DecidableEq, Repr

/-- What `Send` returns. `exhausted` is the final
"failed to send after %d attempts" error wrapping the last failure;
`authErr` is the 401/403 error returned directly. -/
inductive SendResult where
  | ok
  | authErr (e : AttemptErr)
  | exhausted (last : Option AttemptErr)
  deriving DecidableEq, Repr

/-- Observable behaviour of one `Send` call: how many `sendRequest` attempts
ran, the delays (nanoseconds) slept before each retry in order, and the result. -/
structure SendTrace where
  attempts : Nat
  delays : List Nat
  result : SendResult
  deriving DecidableEq, Repr

def maxRetries : Nat := 5
def initialDelayNs : Nat := 1000000000
def maxDelayNs : Nat := 60000000000

/-- `calculateBackoff`: `float64(initialDelay) * backoffMultiplier * float64(attempt)`,
capped at `maxDelay`. The float arithmetic is exact at these magnitudes, so it
is modelled over `Nat` nanoseconds with multiplier 2. -/
def calculateBackoff (attempt : Nat) : Nat :=
  let d := initialDelayNs * 2 * attempt
  if maxDelayNs < d then maxDelayNs else d

/-- Whether a failed attempt is a credential failure: the `*HTTPError` type
assertion with `StatusCode == 401 || StatusCode == 403`. -/
def isAuthErr : AttemptErr → Bool
  | .http c => c = 401 || c = 403
  | .net => false

/-- The retry loop of `Send`, from a given attempt index, carrying the delays
slept so far and the last error. -/
def sendFrom (oc : Nat → Option AttemptErr) (attempt : Nat) (delays : List Nat)
    (lastErr : Option AttemptErr) : SendTrace :=
  if _h : attempt < maxRetries then
    let delays' := if 0 < attempt then delays ++ [calculateBackoff attempt] else delays
    match oc attempt with
    | none => { attempts := attempt + 1, delays := delays', result := .ok }
    | some e =>
      if isAuthErr e then
        { attempts := attempt + 1, delays := delays', result := .authErr e }
      else
        sendFrom oc (attempt + 1) delays' (some e)
  else
    { attempts := attempt, delays := delays, result := .exhausted lastErr }
termination_by maxRetries - attempt

/-- `Send`: run the retry loop from attempt 0. -/
def Send (oc : Nat → Option AttemptErr) : SendTrace := sendFrom oc 0 [] none

/-! ## Delivery Client constructor (`NewClient`)

`NewClient` evaluates `url[len(url)-1]`, which panics (index out of range) on
an empty URL; the panic is modelled as `none`. -/

/-- The base URL a `NewClient` call stores, or `none` for the panic on `url = ""`. -/
def newClientURL (url : List Char) : Option (List Char) :=
  match url.getLast? with
  | none => none
  | some c => if c ≠ '/' then some (url ++ ['/']) else some url

/-! ## Certificate day count (`checkSingleSSL`)

`daysLeft := int(time.Until(cert.NotAfter).Hours() / 24)`: the signed duration
until expiry (nanoseconds) divided down to days, with Go's `int(float64)`
conversion truncating toward zero. The float arithmetic is modelled by exact
rational arithmetic. -/

def nsPerHour : Nat := 3600000000000

/-- Go `int(q)` for a finite float value `q`: truncation toward zero. -/
def ratTrunc (q : ℚ) : Int :=
  if q < 0 then -(⌊-q⌋) else ⌊q⌋

/-- The `DaysLeft` field computed by `checkSingleSSL` from the signed duration
`durNs = NotAfter - now` in nanoseconds. -/
def goDaysLeft (durNs : Int) : Int :=
  ratTrunc ((durNs : ℚ) / (nsPerHour : ℚ) / 24)

def nsPerDay : Int := 86400000000000

/-- Days-remaining as the claim states it: the floor of the duration expressed
in whole days. Follows the spec's words, for comparison with `goDaysLeft`. -/
def specFloorDays (durNs : Int) : Int := ⌊(durNs : ℚ) / (nsPerDay : ℚ)⌋

/-! ## Redaction Engine (`sanitize`)

Each regexp rule of `sanitize` is embedded as a positional matcher `try`
attempting the rule's pattern at the head of the input, returning the
replacement text and the unconsumed remainder. `runRepl try` scans left to
right and replaces non-overlapping matches, exactly as Go's
`Regexp.ReplaceAllString`. In each of the source's patterns every quantified
class is disjoint from the token that follows it, so these greedy single-pass
matchers realise Go's leftmost-first match semantics. -/

/-- Match a pattern literal (`ci`: case-insensitively) against the head of the
input, returning the consumed text as it appeared and the remainder. -/
def matchLit (ci : Bool) : List Char → List Char → Option (List Char × List Char)
  | [], s => some ([], s)
  | _ :: _, [] => none
  | l :: ls, c :: cs =>
    if (if ci then ciEqL c l else c = l) then
      (matchLit ci ls cs).map (fun mr => (c :: mr.1, mr.2))
    else none

/-- The scanning loop of Go `ReplaceAllString` / `strings.ReplaceAll`, with
explicit fuel: scan left to right, replace each non-overlapping match,
continue scanning after the replaced text. Every matcher used with it
consumes at least one character, so the remainder it returns is a suffix of
the scanned tail (recovered by the `drop`) and one unit of fuel per input
character always suffices. -/
def runReplF (tr : List Char → Option (List Char × List Char)) :
    Nat → List Char → List Char
  | 0, s => s
  | _ + 1, [] => []
  | fuel + 1, c :: cs =>
    match tr (c :: cs) with
    | some (rep, rest) => rep ++ runReplF tr fuel (cs.drop (cs.length - rest.length))
    | none => c :: runReplF tr fuel cs

/-- Go `ReplaceAllString` / `strings.ReplaceAll` for one pattern. -/
def runRepl (tr : List Char → Option (List Char × List Char))
    (s : List Char) : List Char :=
  runReplF tr s.length s

/-- `[a-z]` (ASCII). -/
def isLowerAZ (c : Char) : Bool := 'a' ≤ c && c ≤ 'z'

/-- `[A-Z]` (ASCII). -/
def isUpperAZ (c : Char) : Bool := 'A' ≤ c && c ≤ 'Z'

/-- `[^\s"']`: the value class of the key=value redaction rules. -/
def kvValue (c : Char) : Bool := !(goSpace c || c = '"' || c = Char.ofNat 39)

/-- `[A-Za-z0-9\-._~+/]`: the bearer token class. -/
def bearerVC (c : Char) : Bool :=
  isUpperAZ c || isLowerAZ c || isDigitC c ||
    c = '-' || c = '.' || c = '_' || c = '~' || c = '+' || c = '/'

/-- `[A-Za-z0-9_-]`: the JWT segment class. -/
def jwtVC (c : Char) : Bool :=
  isUpperAZ c || isLowerAZ c || isDigitC c || c = '_' || c = '-'

/-- `[0-9A-Z]`: the AWS access key class. -/
def akiaVC (c : Char) : Bool := isUpperAZ c || isDigitC c

def redactedMark : List Char := str "***REDACTED***"
def jwtMark : List Char := str "***JWT_TOKEN_REDACTED***"
def pemMark : List Char := str "***PRIVATE_KEY_REDACTED***"
def awsMark : List Char := str "***AWS_KEY_REDACTED***"
def star3 : List Char := str "***"

/-- `(?i)(lit\s*[=:]\s*)([^\s"']+)` replaced by `${1}***REDACTED***`;
`litm` matches the rule's key literal. -/
def tryKV (litm : List Char → Option (List Char × List Char)) (s : List Char) :
    Option (List Char × List Char) :=
  match litm s with
  | none => none
  | some (m1, r1) =>
    let sp1 := r1.takeWhile goSpace
    match r1.dropWhile goSpace with
    | [] => none
    | c :: r3 =>
      if c = '=' || c = ':' then
        let sp2 := r3.takeWhile goSpace
        let r4 := r3.dropWhile goSpace
        if r4.takeWhile kvValue = [] then none
        else some (m1 ++ sp1 ++ c :: sp2 ++ redactedMark, r4.dropWhile kvValue)
      else none

/-- `(?i)("lit"\s*:\s*")[^"]+` replaced by `${1}***REDACTED***`. -/
def tryJson (litm : List Char → Option (List Char × List Char)) (s : List Char) :
    Option (List Char × List Char) :=
  match s with
  | [] => none
  | q0 :: s1 =>
    if q0 = '"' then
      match litm s1 with
      | none => none
      | some (m, r) =>
        match r with
        | '"' :: r2 =>
          let sp1 := r2.takeWhile goSpace
          match r2.dropWhile goSpace with
          | ':' :: r4 =>
            let sp2 := r4.takeWhile goSpace
            match r4.dropWhile goSpace with
            | '"' :: r6 =>
              if r6.takeWhile (fun c => c ≠ '"') = [] then none
              else some ('"' :: m ++ '"' :: sp1 ++ ':' :: sp2 ++ '"' :: redactedMark,
                         r6.dropWhile (fun c => c ≠ '"'))
            | _ => none
          | _ => none
        | _ => none
    else none

/-- `(?i)api[_-]?key` as a literal matcher (greedy optional separator with the
regexp's backtracking fallback). -/
def matchApiKey (s : List Char) : Option (List Char × List Char) :=
  match matchLit true (str "api") s with
  | none => none
  | some (m1, r1) =>
    match r1 with
    | c :: r2 =>
      if c = '_' || c = '-' then
        match matchLit true (str "key") r2 with
        | some (m2, r3) => some (m1 ++ c :: m2, r3)
        | none =>
          match matchLit true (str "key") r1 with
          | some (m2, r3) => some (m1 ++ m2, r3)
          | none => none
      else
        match matchLit true (str "key") r1 with
        | some (m2, r3) => some (m1 ++ m2, r3)
        | none => none
    | [] => none

/-- `(?i)(bearer\s+)([A-Za-z0-9\-._~+/]+)` replaced by `${1}***REDACTED***`. -/
def tryBearer (s : List Char) : Option (List Char × List Char) :=
  match matchLit true (str "bearer") s with
  | none => none
  | some (m1, r1) =>
    match r1 with
    | c :: r2 =>
      if goSpace c then
        let sp := r2.takeWhile goSpace
        let r3 := r2.dropWhile goSpace
        if r3.takeWhile bearerVC = [] then none
        else some (m1 ++ c :: sp ++ redactedMark, r3.dropWhile bearerVC)
      else none
    | [] => none

/-- `(eyJ[A-Za-z0-9_-]+\.eyJ[A-Za-z0-9_-]+\.[A-Za-z0-9_-]+)` replaced by the
JWT marker. -/
def tryJwt (s : List Char) : Option (List Char × List Char) :=
  match matchLit false (str "eyJ") s with
  | none => none
  | some (_, r1) =>
    if r1.takeWhile jwtVC = [] then none
    else
      match r1.dropWhile jwtVC with
      | '.' :: r2 =>
        match matchLit false (str "eyJ") r2 with
        | none => none
        | some (_, r3) =>
          if r3.takeWhile jwtVC = [] then none
          else
            match r3.dropWhile jwtVC with
            | '.' :: r4 =>
              if r4.takeWhile jwtVC = [] then none
              else some (jwtMark, r4.dropWhile jwtVC)
            | _ => none
      | _ => none

def dashes5 : List Char := str "-----"

/-- The greedy tail `[^\n]+-----` of the PEM pattern on the newline-free run
`t`: the largest offset `j ≥ 1` at which `-----` stands, returning the match
length `j + 5` within `t`. -/
def pemTail (t : List Char) : Option Nat :=
  (((List.range (t.length + 1)).filter
      (fun j => decide (1 ≤ j ∧ (t.drop j).take 5 = dashes5))).getLast?).map (· + 5)

/-- `(?s)-----BEGIN[^\n]+\n[^-]+\n-----END[^\n]+-----` replaced by the PEM
marker. The run `body` of non-hyphen characters after the first newline must
end with a newline directly followed by `-----END` (the only split of
`[^-]+\n-----END` a backtracking search can accept). -/
def tryPem (s : List Char) : Option (List Char × List Char) :=
  match matchLit false (str "-----BEGIN") s with
  | none => none
  | some (_, r1) =>
    if r1.takeWhile (fun c => c ≠ '\n') = [] then none
    else
      match r1.dropWhile (fun c => c ≠ '\n') with
      | '\n' :: r3 =>
        let body := r3.takeWhile (fun c => c ≠ '-')
        if 2 ≤ body.length ∧ body.getLast? = some '\n' then
          match matchLit false (str "-----END") (r3.dropWhile (fun c => c ≠ '-')) with
          | none => none
          | some (_, r5) =>
            match pemTail (r5.takeWhile (fun c => c ≠ '\n')) with
            | some k => some (pemMark, r5.drop k)
            | none => none
        else none
      | _ => none

/-- Take exactly `n` characters satisfying `p`, returning the remainder. -/
def takeN : Nat → (Char → Bool) → List Char → Option (List Char)
  | 0, _, s => some s
  | _ + 1, _, [] => none
  | n + 1, p, c :: cs => if p c then takeN n p cs else none

/-- `AKIA[0-9A-Z]{16}` replaced by the AWS marker. -/
def tryAkia (s : List Char) : Option (List Char × List Char) :=
  match matchLit false (str "AKIA") s with
  | none => none
  | some (_, r1) =>
    match takeN 16 akiaVC r1 with
    | some r2 => some (awsMark, r2)
    | none => none

/-- One position of `strings.ReplaceAll s lit rep` (case-sensitive). -/
def tryLit (lit rep : List Char) (s : List Char) : Option (List Char × List Char) :=
  match matchLit false lit s with
  | none => none
  | some (_, r) => some (rep, r)

/-- `sanitize`: the ordered pattern rules of the source, then the blanket
replacements of the bare words "password" and "secret". -/
def sanitize (s : List Char) : List Char :=
  runRepl (tryLit (str "secret") star3)
    (runRepl (tryLit (str "password") star3)
      (runRepl tryAkia
        (runRepl tryPem
          (runRepl tryJwt
            (runRepl tryBearer
              (runRepl (tryKV (matchLit true (str "token")))
                (runRepl (tryJson (matchLit true (str "secret")))
                  (runRepl (tryKV (matchLit true (str "secret")))
                    (runRepl (tryJson matchApiKey)
                      (runRepl (tryKV matchApiKey)
                        (runRepl (tryJson (matchLit true (str "password")))
                          (runRepl (tryKV (matchLit true (str "password"))) s))))))))))))

/-! ## Log level detection (`detectLogLevel`) -/

/-- `detectLogLevel`: scan the lower-cased content for keyword families in
priority order; first family that matches wins, otherwise the level is unset. -/
def detectLogLevel (content : List Char) : List Char :=
  let cl := toLowerL content
  if hasSub (str "critical") cl || hasSub (str "panic") cl || hasSub (str "fatal") cl then
    str "critical"
  else if hasSub (str "error") cl || hasSub (str "err") cl || hasSub (str "exception") cl then
    str "error"
  else if hasSub (str "warn") cl || hasSub (str "warning") cl then
    str "warn"
  else if hasSub (str "info") cl || hasSub (str "information") cl then
    str "info"
  else
    []

/-- The keyword families the source actually scans for, in priority order,
each paired with the level it reports: the claim's families with the bare
substring "err" (and the redundant superstrings "warning"/"information")
added to match the source. -/
def severityFamilies : List (List (List Char) × List Char) :=
  [([str "critical", str "panic", str "fatal"], str "critical"),
   ([str "error", str "err", str "exception"], str "error"),
   ([str "warn", str "warning"], str "warn"),
   ([str "info", str "information"], str "info")]

/-- First-match-wins scan of the families over the lower-cased content (the
claim's classification shape, over the source's families). -/
def classifyBySeverityFamilies (content : List Char) : List Char :=
  match severityFamilies.find?
      (fun fam => fam.1.any (fun kw => hasSub kw (toLowerL content))) with
  | some fam => fam.2
  | none => []

/-! ## Log Sampler (`ReadAndSanitize`, `readLogFile`)

The file system is a parameter: `fs path` is the raw content of the file at
`path` (bytes as ASCII characters), or `none` when the file cannot be opened.
The stat size is the content length. -/

structure LogEntry where
  path : List Char
  message : List Char
  lines : Nat
  level : List Char
  deriving DecidableEq, Repr

/-- `readLastLinesSimple`: keep the last `maxLines` lines. -/
def readLastLinesSimple (allLines : List (List Char)) (maxLines : Nat) :
    List (List Char) :=
  if allLines.length ≤ maxLines then allLines
  else allLines.drop (allLines.length - maxLines)

/-- `strings.Join(lines, "\n")`. -/
def joinNL : List (List Char) → List Char
  | [] => []
  | [l] => l
  | l :: ls => l ++ '\n' :: joinNL ls

/-- `readLogFile`: open the file, keep the last `maxLines` lines (both size
branches apply the same keep-last-N policy), and build a sanitized entry;
`.error` is a failed open, `.ok none` an empty file. -/
def readLogFile (fs : List Char → Option (List Char)) (path : List Char)
    (maxLines : Int) : Except Unit (Option LogEntry) :=
  match fs path with
  | none => .error ()
  | some content =>
    let all := scanLines content
    let lines :=
      if content.length < 1048576 then
        if maxLines < (all.length : Int) then all.drop (all.length - maxLines.toNat)
        else all
      else
        readLastLinesSimple all maxLines.toNat
    if lines = [] then .ok none
    else
      .ok (some { path := path
                  message := sanitize (joinNL lines)
                  lines := lines.length
                  level := detectLogLevel (joinNL lines) })

/-- The path loop of `ReadAndSanitize`: empty paths, unreadable files and
empty files are skipped. -/
def readPaths (fs : List Char → Option (List Char)) (ml : Int) :
    List (List Char) → List LogEntry
  | [] => []
  | p :: ps =>
    if p = [] then readPaths fs ml ps
    else
      match readLogFile fs p ml with
      | .error _ => readPaths fs ml ps
      | .ok none => readPaths fs ml ps
      | .ok (some e) => e :: readPaths fs ml ps

/-- `ReadAndSanitize`: defaults `maxLines` to 100 when non-positive, walks the
paths, and always returns a `nil` error (second component `none`). -/
def ReadAndSanitize (fs : List Char → Option (List Char))
    (paths : List (List Char)) (maxLines : Int) : List LogEntry × Option Unit :=
  if paths = [] then ([], none)
  else (readPaths fs (if maxLines ≤ 0 then 100 else maxLines) paths, none)

/-! ## Certificate Checker (`CheckSSL`)

The per-domain TLS handshake (`checkSingleSSL`) is supplied by the
environment as `check : List Char → Except E SSLInfo`. -/

structure SSLInfo where
  domain : List Char
  validFrom : Int
  validUntil : Int
  daysLeft : Int
  issuer : List Char
  deriving DecidableEq, Repr

/-- The domain clean-up at the top of the `CheckSSL` loop. -/
def normalizeDomain (d : List Char) : List Char :=
  trimSpace (trimSfx (str "/") (trimPfx (str "http://") (trimPfx (str "https://") d)))

/-- The per-domain loop of `CheckSSL`, accumulating successful records and
wrapped errors ("domain %s: %w") in order; blank domains are skipped. -/
def checkSSLAux {E : Type} (check : List Char → Except E SSLInfo) :
    List (List Char) → List SSLInfo × List (List Char × E)
  | [] => ([], [])
  | d :: ds =>
    let d' := normalizeDomain d
    if d' = [] then checkSSLAux check ds
    else
      match check d' with
      | .error e =>
        let r := checkSSLAux check ds
        (r.1, (d', e) :: r.2)
      | .ok s =>
        let r := checkSSLAux check ds
        (s :: r.1, r.2)

/-- `CheckSSL`: if errors occurred and no domain succeeded, return the first
error with the empty results; otherwise suppress errors and return the
partial results. -/
def CheckSSL {E : Type} (check : List Char → Except E SSLInfo)
    (domains : List (List Char)) : List SSLInfo × Option (List Char × E) :=
  if domains = [] then ([], none)
  else
    match checkSSLAux check domains with
    | ([], e :: _) => ([], some e)
    | (rs, _) => (rs, none)

/-- Spec-side reading of C4's "the successful records": the records of the
domains (blank ones skipped) whose individual check succeeds, in order. -/
def successRecords {E : Type} (check : List Char → Except E SSLInfo) :
    List (List Char) → List SSLInfo
  | [] => []
  | d :: ds =>
    if normalizeDomain d = [] then successRecords check ds
    else
      match check (normalizeDomain d) with
      | .ok s => s :: successRecords check ds
      | .error _ => successRecords check ds

/-! ## Service Classifier (`services` package)

The classifier's pure parts (name/port tables) are embedded directly; the
parts that shell out (`--version` probing, `systemctl is-active`) are supplied
by the environment `SysEnv`. -/

structure ServiceInfo where
  type : List Char
  name : List Char
  version : List Char
  isRunning : Bool
  port : Nat
  processName : List Char
  pid : Nat
  deriving DecidableEq, Repr

/-- Answers of the external tools the Service Classifier invokes: the version
string extracted for a service type and whether its system service is active. -/
structure SysEnv where
  version : List Char → List Char
  running : List Char → Bool

def serviceTypeUnknown : List Char := str "unknown"

/-- `detectByProcessName` (its caller lower-cases the process name first). -/
def detectByProcessName (p : List Char) : List Char :=
  if hasSub (str "docker") p || hasSub (str "dockerd") p || hasSub (str "containerd") p then
    str "docker"
  else if hasSub (str "nginx") p then str "nginx"
  else if hasSub (str "apache") p || hasSub (str "httpd") p then str "apache"
  else if hasSub (str "mysql") p || hasSub (str "mysqld") p then str "mysql"
  else if hasSub (str "postgres") p || hasSub (str "postmaster") p then str "postgresql"
  else if hasSub (str "redis") p || hasSub (str "redis-server") p then str "redis"
  else if hasSub (str "mongod") p || hasSub (str "mongo") p then str "mongodb"
  else if hasSub (str "node") p || hasSub (str "nodejs") p then str "nodejs"
  else if hasSub (str "python") p || hasSub (str "python3") p then str "python"
  else if hasSub (str "php") p || hasSub (str "php-fpm") p then str "php"
  else serviceTypeUnknown

/-- `detectByPort`: the well-known port table (ambiguous web ports are left
unknown deliberately). -/
def detectByPort (port : Nat) : List Char :=
  if port = 80 ∨ port = 8080 ∨ port = 8000 ∨ port = 3000 ∨ port = 3001 then
    serviceTypeUnknown
  else if port = 443 then serviceTypeUnknown
  else if port = 3306 then str "mysql"
  else if port = 5432 then str "postgresql"
  else if port = 6379 then str "redis"
  else if port = 27017 then str "mongodb"
  else if port = 2375 ∨ port = 2376 then str "docker"
  else serviceTypeUnknown

/-- `getServiceName`. -/
def getServiceName (t : List Char) : List Char :=
  if t = str "docker" then str "Docker"
  else if t = str "nginx" then str "Nginx"
  else if t = str "apache" then str "Apache"
  else if t = str "mysql" then str "MySQL"
  else if t = str "postgresql" then str "PostgreSQL"
  else if t = str "redis" then str "Redis"
  else if t = str "mongodb" then str "MongoDB"
  else if t = str "nodejs" then str "Node.js"
  else if t = str "python" then str "Python"
  else if t = str "php" then str "PHP"
  else str "Unknown Service"

/-- The service types `getServiceVersion` has a version command for; its
default branch returns "". -/
def versionedTypes : List (List Char) :=
  [str "docker", str "nginx", str "apache", str "mysql", str "postgresql",
   str "redis", str "nodejs", str "python", str "php"]

def getServiceVersion (env : SysEnv) (t : List Char) : List Char :=
  if t ∈ versionedTypes then env.version t else []

/-- The service types `checkServiceRunning` queries `systemctl` for; the
default branch assumes running. -/
def runCheckedTypes : List (List Char) :=
  [str "docker", str "nginx", str "apache", str "mysql", str "postgresql", str "redis"]

def checkServiceRunning (env : SysEnv) (t : List Char) : Bool :=
  if t ∈ runCheckedTypes then env.running t else true

/-- `DetectService`: name axis first, port axis when the name is inconclusive. -/
def DetectService (env : SysEnv) (processName : List Char) (port pid : Nat) :
    ServiceInfo :=
  let t0 := detectByProcessName (toLowerL processName)
  let t := if t0 = serviceTypeUnknown then detectByPort port else t0
  { type := t, name := getServiceName t,
    version := getServiceVersion env t, isRunning := checkServiceRunning env t,
    port := port, processName := processName, pid := pid }

/-! ## Discovery Parser (`parseSSOutput`)

The two regexps over each "LISTEN" line are embedded as positional matchers
with an explicit leftmost scan and explicit lazy (`.*?`) searches. -/

structure PortInfo where
  protocol : List Char
  port : Nat
  process : List Char
  pid : Nat
  serviceType : List Char
  serviceName : List Char
  deriving DecidableEq, Repr

/-- `shouldMonitorPort`: an empty filter monitors every port, a non-empty one
only its members. -/
def shouldMonitorPort (port : Nat) (portsToMonitor : List Nat) : Bool :=
  if portsToMonitor = [] then true
  else portsToMonitor.any (fun p => decide (p = port))

/-- Require at least one character satisfying `p` and consume the maximal run,
returning (run, remainder). -/
def run1 (p : Char → Bool) (s : List Char) : Option (List Char × List Char) :=
  match s with
  | c :: _ => if p c then some (s.takeWhile p, s.dropWhile p) else none
  | [] => none

/-- The `\s+\d+\s+\d+\s+` header after `LISTEN` in both ss patterns. -/
def ssHeader (s : List Char) : Option (List Char) :=
  (run1 goSpace s).bind fun a =>
  (run1 isDigitC a.2).bind fun b =>
  (run1 goSpace b.2).bind fun c =>
  (run1 isDigitC c.2).bind fun d =>
  (run1 goSpace d.2).map fun e => e.2

/-- The tail `users:\(\("([^"]+)",pid=(\d+),` attempted at the head of `s`,
returning the process name and pid. -/
def usersAt (s : List Char) : Option (List Char × Nat) :=
  (matchLit false (str "users:((\"") s).bind fun a =>
  (run1 (fun c => c ≠ '"') a.2).bind fun pr =>
  (matchLit false (str "\",pid=") pr.2).bind fun b =>
  (run1 isDigitC b.2).bind fun ds =>
  match ds.2 with
  | ',' :: _ => some (pr.1, digitsToNat ds.1)
  | _ => none

/-- The lazy search `.*?\s+users:…`: the first `users` tail standing right
after a whitespace character (`prev` records whether the previous character
was whitespace). -/
def searchUsers : Bool → List Char → Option (List Char × Nat)
  | prev, s =>
    match (if prev then usersAt s else none) with
    | some r => some r
    | none =>
      match s with
      | [] => none
      | c :: cs => searchUsers (goSpace c) cs
termination_by _ s => s.length

/-- The lazy search `.*?:(\d+)\s+` followed by the users search, for the full
ss pattern. -/
def ssSearchPort : List Char → Option (Nat × List Char × Nat)
  | [] => none
  | c :: cs =>
    match
      (if c = ':' then
        (run1 isDigitC cs).bind fun ds =>
        match ds.2 with
        | sp :: rest =>
          if goSpace sp then
            (searchUsers false rest).map fun pr => (digitsToNat ds.1, pr)
          else none
        | [] => none
      else none) with
    | some r => some r
    | none => ssSearchPort cs

/-- The full pattern
`LISTEN\s+\d+\s+\d+\s+.*?:(\d+)\s+.*?\s+users:\(\("([^"]+)",pid=(\d+),`
attempted at the head of `s`. -/
def ssFullAt (s : List Char) : Option (Nat × List Char × Nat) :=
  (matchLit false (str "LISTEN") s).bind fun a =>
  (ssHeader a.2).bind fun s6 =>
  ssSearchPort s6

/-- The lazy search `.*?:(\d+)\s+` closing the simpler ss pattern. -/
def ssSimpleSearch : List Char → Option Nat
  | [] => none
  | c :: cs =>
    match
      (if c = ':' then
        (run1 isDigitC cs).bind fun ds =>
        match ds.2 with
        | sp :: _ => if goSpace sp then some (digitsToNat ds.1) else none
        | [] => none
      else none) with
    | some r => some r
    | none => ssSimpleSearch cs

/-- The simpler pattern `LISTEN\s+\d+\s+\d+\s+.*?:(\d+)\s+` attempted at the
head of `s`. -/
def ssSimpleAt (s : List Char) : Option Nat :=
  (matchLit false (str "LISTEN") s).bind fun a =>
  (ssHeader a.2).bind fun s6 =>
  ssSimpleSearch s6

/-- `FindStringSubmatch`: the leftmost position where the attempt succeeds. -/
def findFirst {α : Type} (att : List Char → Option α) : List Char → Option α
  | [] => att []
  | c :: cs =>
    match att (c :: cs) with
    | some r => some r
    | none => findFirst att cs

/-- One line of `parseSSOutput`: lines without "LISTEN" are skipped; the full
pattern is tried first, then the simpler pattern without process attribution;
the port filter and service detection are applied as in the source. -/
def parseSSLine (env : SysEnv) (portsToMonitor : List Nat) (line : List Char) :
    Option PortInfo :=
  if ¬ hasSub (str "LISTEN") line then none
  else
    match findFirst ssFullAt line with
    | some (port, processName, pid) =>
      if shouldMonitorPort port portsToMonitor then
        let protocol := if hasSub (str "udp") line then str "udp" else str "tcp"
        let si := DetectService env processName port pid
        some { protocol := protocol, port := port, process := processName, pid := pid,
               serviceType := if si.type ≠ serviceTypeUnknown then si.type else [],
               serviceName := if si.type ≠ serviceTypeUnknown then si.name else [] }
      else none
    | none =>
      match findFirst ssSimpleAt line with
      | some port =>
        if shouldMonitorPort port portsToMonitor then
          let protocol := if hasSub (str "udp") line then str "udp" else str "tcp"
          let si := DetectService env (str "unknown") port 0
          some { protocol := protocol, port := port, process := str "unknown", pid := 0,
                 serviceType := if si.type ≠ serviceTypeUnknown then si.type else [],
                 serviceName := if si.type ≠ serviceTypeUnknown then si.name else [] }
        else none
      | none => none

/-- `parseSSOutput`: split the tool output into lines and collect the per-line
records in order. -/
def parseSSOutput (env : SysEnv) (output : List Char) (portsToMonitor : List Nat) :
    List PortInfo :=
  (splitOnChar '\n' output).filterMap (parseSSLine env portsToMonitor)

/-! ## Command Dispatcher: `handleUpdateConfig`

The command payload is Go's decoded JSON (`map[string]interface{}`), embedded
as an association list of `JVal` (JSON numbers, float64 in Go, are exact
rationals here). `.ok cfg` means `cfg` was persisted by `config.Save`;
`.error` means the handler returned before saving. -/

/-- A decoded JSON value as `encoding/json` produces inside `interface{}`. -/
inductive JVal where
  | s (v : List Char)
  | n (v : ℚ)
  | b (v : Bool)
  | arr (v : List JVal)
  | obj (v : List (List Char × JVal))
  | null

/-- The agent configuration (`config.Config`). -/
structure Config where
  apiKey : List Char
  backendURL : List Char
  intervalSeconds : Int
  hostname : List Char
  logPaths : List (List Char)
  logMaxLines : Int
  sslDomains : List (List Char)
  portsToMonitor : List Int
  deriving DecidableEq, Repr

/-- Go map lookup on a decoded JSON object. -/
def jlookup (m : List (List Char × JVal)) (k : List Char) : Option JVal :=
  (m.find? (fun kv => decide (kv.1 = k))).map (fun kv => kv.2)

/-- The `[]interface{}` → `[]string` extraction loops (non-strings skipped). -/
def jStrings (l : List JVal) : List (List Char) :=
  l.filterMap (fun v => match v with | .s x => some x | _ => none)

/-- The `[]interface{}` → `[]int` extraction loop for `ports_to_monitor`. -/
def jInts (l : List JVal) : List Int :=
  l.filterMap (fun v => match v with | .n x => some (ratTrunc x) | _ => none)

/-- The `api_key` field after the merge (`ok && apiKey != ""`). -/
def newApiKey (m : List (List Char × JVal)) (old : List Char) : List Char :=
  match jlookup m (str "api_key") with
  | some (.s v) => if v ≠ [] then v else old
  | _ => old

/-- The `backend_url` field after the merge (`ok && backendURL != ""`). -/
def newBackendURL (m : List (List Char × JVal)) (old : List Char) : List Char :=
  match jlookup m (str "backend_url") with
  | some (.s v) => if v ≠ [] then v else old
  | _ => old

/-- The `interval_seconds` field after the merge (`ok && interval > 0`,
`int(float64)` truncation). -/
def newInterval (m : List (List Char × JVal)) (old : Int) : Int :=
  match jlookup m (str "interval_seconds") with
  | some (.n v) => if 0 < v then ratTrunc v else old
  | _ => old

/-- The `hostname` field after the merge (any string, including empty). -/
def newHostname (m : List (List Char × JVal)) (old : List Char) : List Char :=
  match jlookup m (str "hostname") with
  | some (.s v) => v
  | _ => old

/-- The `log_paths` field after the merge (replaced by the string elements). -/
def newLogPaths (m : List (List Char × JVal)) (old : List (List Char)) :
    List (List Char) :=
  match jlookup m (str "log_paths") with
  | some (.arr l) => jStrings l
  | _ => old

/-- The `ssl_domains` field after the merge. -/
def newSSLDomains (m : List (List Char × JVal)) (old : List (List Char)) :
    List (List Char) :=
  match jlookup m (str "ssl_domains") with
  | some (.arr l) => jStrings l
  | _ => old

/-- The `log_max_lines` field after the merge (`ok && logMaxLines > 0`). -/
def newMaxLines (m : List (List Char × JVal)) (old : Int) : Int :=
  match jlookup m (str "log_max_lines") with
  | some (.n v) => if 0 < v then ratTrunc v else old
  | _ => old

/-- The `ports_to_monitor` field after the merge. -/
def newPorts (m : List (List Char × JVal)) (old : List Int) : List Int :=
  match jlookup m (str "ports_to_monitor") with
  | some (.arr l) => jInts l
  | _ => old

/-- The `api_key` merge step. -/
def updApiKey (m : List (List Char × JVal)) (c : Config) : Config :=
  { c with apiKey := newApiKey m c.apiKey }

/-- The `backend_url` merge step. -/
def updBackendURL (m : List (List Char × JVal)) (c : Config) : Config :=
  { c with backendURL := newBackendURL m c.backendURL }

/-- The `interval_seconds` merge step. -/
def updInterval (m : List (List Char × JVal)) (c : Config) : Config :=
  { c with intervalSeconds := newInterval m c.intervalSeconds }

/-- The `hostname` merge step. -/
def updHostname (m : List (List Char × JVal)) (c : Config) : Config :=
  { c with hostname := newHostname m c.hostname }

/-- The `log_paths` merge step. -/
def updLogPaths (m : List (List Char × JVal)) (c : Config) : Config :=
  { c with logPaths := newLogPaths m c.logPaths }

/-- The `ssl_domains` merge step. -/
def updSSLDomains (m : List (List Char × JVal)) (c : Config) : Config :=
  { c with sslDomains := newSSLDomains m c.sslDomains }

/-- The `log_max_lines` merge step. -/
def updMaxLines (m : List (List Char × JVal)) (c : Config) : Config :=
  { c with logMaxLines := newMaxLines m c.logMaxLines }

/-- The `ports_to_monitor` merge step. -/
def updPorts (m : List (List Char × JVal)) (c : Config) : Config :=
  { c with portsToMonitor := newPorts m c.portsToMonitor }

/-- `handleUpdateConfig`: requires `payload["config"]` to be an object, merges
only the present (well-typed, guarded) fields into `current` in the source's
order, and persists the result. -/
def handleUpdateConfig (payload : List (List Char × JVal)) (current : Config) :
    Except (List Char) Config :=
  match jlookup payload (str "config") with
  | some (.obj m) =>
    .ok (updPorts m (updMaxLines m (updSSLDomains m (updLogPaths m
          (updHostname m (updInterval m (updBackendURL m (updApiKey m current))))))))
  | _ => .error (str "invalid config payload")

/-! ## Theorems -/

/-- C10: `NewClient` evaluates `url[len(url)-1]` and panics (index out of
range, modelled `none`) on the empty URL; for a non-empty URL it appends
exactly one '/' when the last character is not '/', and returns the URL
unchanged when it already ends in '/'. -/
theorem newClientURL_spec (url : List Char) (hne : url ≠ []) :
    newClientURL [] = none ∧
    (url.getLast? ≠ some '/' → newClientURL url = some (url ++ ['/'])) ∧
    (url.getLast? = some '/' → newClientURL url = some url) := by
  refine ⟨rfl, ?_, ?_⟩
  · intro h
    rcases hu : url.getLast? with _ | c
    · exact absurd (List.getLast?_eq_none_iff.mp hu) hne
    · have hc : c ≠ '/' := fun hc => h (by rw [hu, hc])
      simp [newClientURL, hu, hc]
  · intro h
    simp [newClientURL, h]

/-- Witness for C10 at a concrete URL. -/
theorem newClientURL_spec_w :
    newClientURL [] = none ∧
    ((str "https://x").getLast? ≠ some '/' →
      newClientURL (str "https://x") = some (str "https://x" ++ ['/'])) ∧
    ((str "https://x").getLast? = some '/' →
      newClientURL (str "https://x") = some (str "https://x")) :=
  newClientURL_spec (str "https://x") (by decide)

/-- C7 counterexample: the content "transferred" contains none of the claimed
keyword families (critical/panic/fatal, error/exception, warn, info), so the
claim says its severity is left unset — but `detectLogLevel` returns "error",
because the source also scans for the bare substring "err". -/
theorem detectLogLevel_unset_cex :
    detectLogLevel (str "transferred") = str "error" ∧
    hasSub (str "critical") (toLowerL (str "transferred")) = false ∧
    hasSub (str "panic") (toLowerL (str "transferred")) = false ∧
    hasSub (str "fatal") (toLowerL (str "transferred")) = false ∧
    hasSub (str "error") (toLowerL (str "transferred")) = false ∧
    hasSub (str "exception") (toLowerL (str "transferred")) = false ∧
    hasSub (str "warn") (toLowerL (str "transferred")) = false ∧
    hasSub (str "info") (toLowerL (str "transferred")) = false ∧
    detectLogLevel (str "transferred") ≠ [] := by decide

/-- C7 amended: `detectLogLevel` scans the lower-cased content for the keyword
families critical/panic/fatal, then error/err/exception, then warn, then info,
in that priority order; the first family with a member occurring decides the
severity and no match leaves it unset. -/
theorem detectLogLevel_families_amended (content : List Char) :
    detectLogLevel content = classifyBySeverityFamilies content := by
  simp only [detectLogLevel, classifyBySeverityFamilies, severityFamilies,
    List.find?, List.any_cons, List.any_nil, Bool.or_false]
  cases hasSub (str "critical") (toLowerL content) <;>
    cases hasSub (str "panic") (toLowerL content) <;>
    cases hasSub (str "fatal") (toLowerL content) <;>
    cases hasSub (str "error") (toLowerL content) <;>
    cases hasSub (str "err") (toLowerL content) <;>
    cases hasSub (str "exception") (toLowerL content) <;>
    cases hasSub (str "warn") (toLowerL content) <;>
    cases hasSub (str "warning") (toLowerL content) <;>
    cases hasSub (str "info") (toLowerL content) <;>
    cases hasSub (str "information") (toLowerL content) <;>
    rfl

/-- C6 counterexample: a certificate expired by exactly 12 hours (duration
−43200000000000 ns) gets `DaysLeft = 0`: not the floor value −1 the claim
computes, and not negative although the certificate is already expired. -/
theorem daysLeft_floor_cex :
    goDaysLeft (-43200000000000) = 0 ∧
    specFloorDays (-43200000000000) = -1 ∧
    (-43200000000000 : Int) < 0 ∧
    ¬ goDaysLeft (-43200000000000) < 0 := by
  have e1 : ((-43200000000000 : Int) : ℚ) / ((nsPerHour : Nat) : ℚ) / 24 = -(1/2 : ℚ) := by
    norm_num [nsPerHour]
  have h0 : goDaysLeft (-43200000000000) = 0 := by
    simp only [goDaysLeft, ratTrunc, e1]
    rw [if_pos (by norm_num), neg_neg,
      Int.floor_eq_zero_iff.mpr ⟨by norm_num, by norm_num⟩, neg_zero]
  have h1 : specFloorDays (-43200000000000) = -1 := by
    have e2 : ((-43200000000000 : Int) : ℚ) / ((nsPerDay : Int) : ℚ) = -(1/2 : ℚ) := by
      norm_num [nsPerDay]
    rw [specFloorDays, e2, Int.floor_eq_iff]
    constructor <;> norm_num
  exact ⟨h0, h1, by norm_num, by rw [h0]; norm_num⟩

/-- C6 amended: `DaysLeft` is the duration in days truncated toward zero
(Go's `int(float64)` conversion): it agrees with the claimed floor whenever
the certificate is not yet expired, but a certificate expired by less than
24 hours reports 0, and the value is negative only once the certificate is
expired by at least a full day. -/
theorem daysLeft_trunc_amended (d : Int) :
    (0 ≤ d → goDaysLeft d = specFloorDays d) ∧
    (-nsPerDay < d → d < 0 → goDaysLeft d = 0) ∧
    (d ≤ -nsPerDay → goDaysLeft d < 0) := by
  have hN : (0:ℚ) < ((nsPerDay : Int) : ℚ) := by norm_num [nsPerDay]
  have hq : ((d : ℚ) / ((nsPerHour : Nat) : ℚ) / 24) = (d : ℚ) / ((nsPerDay : Int) : ℚ) := by
    rw [div_div]
    norm_num [nsPerHour, nsPerDay]
  refine ⟨?_, ?_, ?_⟩
  · intro hd
    have hq0 : (0:ℚ) ≤ (d : ℚ) / ((nsPerDay : Int) : ℚ) :=
      div_nonneg (by exact_mod_cast hd) hN.le
    simp only [goDaysLeft, ratTrunc, hq, specFloorDays]
    rw [if_neg (not_lt.mpr hq0)]
  · intro h1 h2
    have hdq : ((d : ℚ)) < 0 := by exact_mod_cast h2
    have hq0 : (d : ℚ) / ((nsPerDay : Int) : ℚ) < 0 := div_neg_of_neg_of_pos hdq hN
    have hlt : -((d : ℚ) / ((nsPerDay : Int) : ℚ)) < 1 := by
      rw [← neg_div, div_lt_one hN]
      have : (-d : Int) < nsPerDay := by omega
      exact_mod_cast this
    have hge : (0:ℚ) ≤ -((d : ℚ) / ((nsPerDay : Int) : ℚ)) := by linarith
    simp only [goDaysLeft, ratTrunc, hq]
    rw [if_pos hq0, Int.floor_eq_zero_iff.mpr ⟨hge, hlt⟩, neg_zero]
  · intro h1
    have hnd : (0:Int) < nsPerDay := by norm_num [nsPerDay]
    have hd0 : d < 0 := by omega
    have hdq : ((d : ℚ)) < 0 := by exact_mod_cast hd0
    have hq0 : (d : ℚ) / ((nsPerDay : Int) : ℚ) < 0 := div_neg_of_neg_of_pos hdq hN
    have hone : (1:ℚ) ≤ -((d : ℚ) / ((nsPerDay : Int) : ℚ)) := by
      rw [← neg_div, one_le_div hN]
      have : nsPerDay ≤ (-d : Int) := by omega
      exact_mod_cast this
    have hfl : (1:Int) ≤ ⌊-((d : ℚ) / ((nsPerDay : Int) : ℚ))⌋ := by
      rw [Int.le_floor]; exact_mod_cast hone
    simp only [goDaysLeft, ratTrunc, hq]
    rw [if_pos hq0]
    omega

/-- Helper: the retry loop never exceeds the attempt budget. -/
theorem sendFrom_attempts_le (oc : Nat → Option AttemptErr) :
    ∀ (n attempt : Nat) (delays : List Nat) (lastErr : Option AttemptErr),
      maxRetries - attempt ≤ n → attempt ≤ maxRetries →
      (sendFrom oc attempt delays lastErr).attempts ≤ maxRetries := by
  intro n
  induction n with
  | zero =>
    intro a d l h1 h2
    rw [sendFrom, dif_neg (by omega)]
    simpa using h2
  | succ n ih =>
    intro a d l h1 h2
    rw [sendFrom]
    by_cases h : a < maxRetries
    · rw [dif_pos h]
      cases oc a with
      | none => simpa using h
      | some e =>
        by_cases ha : isAuthErr e
        · simp only [ha, if_true]
          simpa using h
        · simp only [ha, Bool.false_eq_true, if_false]
          exact ih (a + 1) _ _ (by omega) (by omega)
    · rw [dif_neg h]
      simpa using h2

/-- C2: `Send` performs at most 5 attempts in every run; when every attempt
fails with a retryable error, it performs exactly 5 attempts, sleeps
min(60 s, 1 s · 2.0 · (k−1)) (in nanoseconds) before attempt k for each
k = 2..5, and returns the exhausted-retries error wrapping the last failure. -/
theorem send_retry_policy (oc : Nat → Option AttemptErr) (e : Nat → AttemptErr)
    (hfail : ∀ i, i < 5 → oc i = some (e i))
    (hretry : ∀ i, i < 5 → isAuthErr (e i) = false) :
    (∀ oc2 : Nat → Option AttemptErr, (Send oc2).attempts ≤ 5) ∧
    Send oc =
      { attempts := 5,
        delays := [calculateBackoff 1, calculateBackoff 2,
          calculateBackoff 3, calculateBackoff 4],
        result := .exhausted (some (e 4)) } ∧
    (∀ k, 2 ≤ k → k ≤ 5 →
      (Send oc).delays.getD (k - 2) 0 =
        min 60000000000 (1000000000 * 2 * (k - 1))) := by
  have h0 := hfail 0 (by omega); have r0 := hretry 0 (by omega)
  have h1 := hfail 1 (by omega); have r1 := hretry 1 (by omega)
  have h2 := hfail 2 (by omega); have r2 := hretry 2 (by omega)
  have h3 := hfail 3 (by omega); have r3 := hretry 3 (by omega)
  have h4 := hfail 4 (by omega); have r4 := hretry 4 (by omega)
  have hmain : Send oc =
      { attempts := 5,
        delays := [calculateBackoff 1, calculateBackoff 2,
          calculateBackoff 3, calculateBackoff 4],
        result := .exhausted (some (e 4)) } := by
    simp [Send, sendFrom, maxRetries, h0, h1, h2, h3, h4, r0, r1, r2, r3, r4]
  refine ⟨?_, hmain, ?_⟩
  · intro oc2
    exact sendFrom_attempts_le oc2 maxRetries 0 [] none (by omega) (by omega)
  · intro k hk2 hk5
    rw [hmain]
    interval_cases k <;>
      norm_num [calculateBackoff, initialDelayNs, maxDelayNs, List.getD]

/-- Helper: the delays slept by the retry loop on consecutive retryable
failures followed by a credential failure, starting from attempt `a ≥ 1`. -/
theorem sendFrom_auth_stop (oc : Nat → Option AttemptErr) (c : Nat)
    (hc : c = 401 ∨ c = 403) :
    ∀ (j a : Nat) (d : List Nat) (l : Option AttemptErr), 1 ≤ a → a + j < maxRetries →
      (∀ i, a ≤ i → i < a + j → ∃ ei, oc i = some ei ∧ isAuthErr ei = false) →
      oc (a + j) = some (.http c) →
      sendFrom oc a d l =
        { attempts := a + j + 1,
          delays := d ++ (List.range' a (j + 1)).map calculateBackoff,
          result := .authErr (.http c) } := by
  intro j
  induction j with
  | zero =>
    intro a d l ha hlt _ hj
    rw [sendFrom, dif_pos (by omega)]
    rw [show a + 0 = a from rfl] at hj
    rw [hj]
    have hA : isAuthErr (.http c) = true := by
      rcases hc with h | h <;> simp [isAuthErr, h]
    have hpos : 0 < a := ha
    simp [hA, hpos, List.range'_one]
  | succ j ih =>
    intro a d l ha hlt hmid hj
    rw [sendFrom, dif_pos (by omega)]
    obtain ⟨ea, hea, hra⟩ := hmid a (by omega) (by omega)
    rw [hea]
    have hpos : 0 < a := ha
    simp only [hra, Bool.false_eq_true, if_false, hpos, if_true]
    have hstep := ih (a + 1) (d ++ [calculateBackoff a]) (some ea) (by omega) (by omega)
      (fun i hi1 hi2 => hmid i (by omega) (by omega))
      (by rw [show a + 1 + j = a + (j + 1) by omega]; exact hj)
    rw [hstep, show a + 1 + j + 1 = a + (j + 1) + 1 by omega, List.range'_succ]
    simp [List.range'_succ]

/-- C3: a 401/403 response aborts retries immediately: if attempts before `j`
failed retryably and attempt `j` (0-based) returns 401 or 403, `Send` performs
exactly `j + 1` attempts and returns that credential error itself, not the
exhausted-retries error; in particular a 401/403 on the first attempt means
exactly one attempt. -/
theorem send_auth_shortcircuit (oc : Nat → Option AttemptErr) (j c : Nat)
    (hj : j < 5)
    (hbefore : ∀ i, i < j → ∃ ei, oc i = some ei ∧ isAuthErr ei = false)
    (hcode : oc j = some (.http c)) (hc : c = 401 ∨ c = 403) :
    Send oc =
      { attempts := j + 1,
        delays := (List.range' 1 j).map calculateBackoff,
        result := .authErr (.http c) } := by
  rw [Send]
  cases j with
  | zero =>
    rw [sendFrom, dif_pos (by norm_num [maxRetries]), hcode]
    have hA : isAuthErr (.http c) = true := by
      rcases hc with h | h <;> simp [isAuthErr, h]
    simp [hA]
  | succ j =>
    rw [sendFrom, dif_pos (by norm_num [maxRetries])]
    obtain ⟨e0, he0, hr0⟩ := hbefore 0 (by omega)
    rw [he0]
    simp only [hr0, Bool.false_eq_true, if_false, Nat.lt_irrefl]
    have hstep := sendFrom_auth_stop oc c hc j 1 [] (some e0) (by omega)
      (by simp only [maxRetries]; omega) (fun i hi1 hi2 => hbefore i (by omega))
      (by rw [show 1 + j = j + 1 by omega]; exact hcode)
    rw [hstep, show 1 + j = j + 1 by omega]
    simp

/-- Witness for C3: a 401 on the very first attempt gives exactly one attempt
and the credential error. -/
theorem send_auth_shortcircuit_w :
    Send (fun _ => some (.http 401)) =
      { attempts := 1, delays := [], result := .authErr (.http 401) } := by
  have := send_auth_shortcircuit (fun _ => some (.http 401)) 0 401 (by omega)
    (fun i hi => absurd hi (by omega)) rfl (Or.inl rfl)
  simpa using this

/-- Witness for C2: five network-level failures exhaust the retries with the
policy's delays. -/
theorem send_retry_policy_w :
    (∀ oc2 : Nat → Option AttemptErr, (Send oc2).attempts ≤ 5) ∧
    Send (fun _ => some .net) =
      { attempts := 5,
        delays := [calculateBackoff 1, calculateBackoff 2,
          calculateBackoff 3, calculateBackoff 4],
        result := .exhausted (some .net) } ∧
    (∀ k, 2 ≤ k → k ≤ 5 →
      (Send (fun _ => some .net)).delays.getD (k - 2) 0 =
        min 60000000000 (1000000000 * 2 * (k - 1))) :=
  send_retry_policy (fun _ => some .net) (fun _ => .net)
    (fun _ _ => rfl) (fun _ _ => rfl)

/-- Helper: the `CheckSSL` loop distributes over list append. -/
theorem checkSSLAux_append {E : Type} (check : List Char → Except E SSLInfo)
    (ds1 ds2 : List (List Char)) :
    checkSSLAux check (ds1 ++ ds2) =
      ((checkSSLAux check ds1).1 ++ (checkSSLAux check ds2).1,
       (checkSSLAux check ds1).2 ++ (checkSSLAux check ds2).2) := by
  induction ds1 with
  | nil => simp [checkSSLAux]
  | cons d ds ih =>
    simp only [List.cons_append, checkSSLAux]
    by_cases h : normalizeDomain d = []
    · simp [h, ih]
    · cases hc : check (normalizeDomain d) <;> simp [h, hc, ih]

/-- Helper: domains that are blank after normalization contribute nothing. -/
theorem checkSSLAux_skip {E : Type} (check : List Char → Except E SSLInfo)
    (ds : List (List Char)) (h : ∀ d ∈ ds, normalizeDomain d = []) :
    checkSSLAux check ds = ([], []) := by
  induction ds with
  | nil => rfl
  | cons d ds ih =>
    have hd := h d (List.mem_cons_self d ds)
    simp [checkSSLAux, hd, ih (fun x hx => h x (List.mem_cons_of_mem _ hx))]

/-- Helper: domains that are blank or whose check fails contribute no results. -/
theorem checkSSLAux_fail_nil {E : Type} (check : List Char → Except E SSLInfo)
    (ds : List (List Char))
    (h : ∀ d ∈ ds, normalizeDomain d = [] ∨
          ∃ e, check (normalizeDomain d) = .error e) :
    (checkSSLAux check ds).1 = [] := by
  induction ds with
  | nil => rfl
  | cons d ds ih =>
    have ih2 := ih (fun x hx => h x (List.mem_cons_of_mem _ hx))
    by_cases hd : normalizeDomain d = []
    · simp [checkSSLAux, hd, ih2]
    · rcases h d (List.mem_cons_self d ds) with h1 | ⟨e, he⟩
      · exact absurd h1 hd
      · simp [checkSSLAux, hd, he, ih2]

/-- Helper: the first component of the `CheckSSL` loop is exactly the list of
successful records. -/
theorem checkSSLAux_fst {E : Type} (check : List Char → Except E SSLInfo) :
    ∀ ds, (checkSSLAux check ds).1 = successRecords check ds := by
  intro ds
  induction ds with
  | nil => rfl
  | cons d ds ih =>
    rw [checkSSLAux, successRecords]
    by_cases h : normalizeDomain d = []
    · simp only [if_pos h]
      exact ih
    · simp only [if_neg h]
      cases hc : check (normalizeDomain d) with
      | ok s => simpa using ih
      | error e => simpa using ih

/-- Helper: one succeeding domain makes the successful records nonempty. -/
theorem successRecords_ne_nil {E : Type} (check : List Char → Except E SSLInfo) :
    ∀ (ds : List (List Char)) (d : List Char) (s : SSLInfo), d ∈ ds →
      normalizeDomain d ≠ [] → check (normalizeDomain d) = .ok s →
      successRecords check ds ≠ [] := by
  intro ds
  induction ds with
  | nil =>
    intro d s h
    exact absurd h (List.not_mem_nil d)
  | cons a as ih =>
    intro d s hmem hnd hok
    rcases List.mem_cons.mp hmem with rfl | hmem2
    · rw [successRecords, if_neg hnd, hok]
      simp
    · rw [successRecords]
      by_cases ha : normalizeDomain a = []
      · rw [if_pos ha]
        exact ih d s hmem2 hnd hok
      · rw [if_neg ha]
        cases hc : check (normalizeDomain a) with
        | ok s2 => simp
        | error e => exact ih d s hmem2 hnd hok

/-- C4: error handling of the certificate check over a list of domains: when
every checked domain fails, `CheckSSL` returns the first encountered
(wrapped) error with an empty result sequence; when at least one domain
succeeds — however many others succeed or fail — it suppresses the errors
and returns exactly the (nonempty) list of successful records with a nil
error; in particular, when exactly one domain succeeds the result is that
single record with a nil error. -/
theorem checkSSL_partial_results {E : Type} (check : List Char → Except E SSLInfo) :
    (∀ (pre post : List (List Char)) (d0 : List Char) (e0 : E),
      (∀ d ∈ pre, normalizeDomain d = []) →
      normalizeDomain d0 ≠ [] →
      check (normalizeDomain d0) = .error e0 →
      (∀ d ∈ post, normalizeDomain d = [] ∨
        ∃ e, check (normalizeDomain d) = .error e) →
      CheckSSL check (pre ++ d0 :: post) = ([], some (normalizeDomain d0, e0))) ∧
    (∀ (domains : List (List Char)) (d0 : List Char) (s0 : SSLInfo),
      d0 ∈ domains →
      normalizeDomain d0 ≠ [] →
      check (normalizeDomain d0) = .ok s0 →
      CheckSSL check domains = (successRecords check domains, none) ∧
      successRecords check domains ≠ []) ∧
    (∀ (pre post : List (List Char)) (d0 : List Char) (s0 : SSLInfo),
      (∀ d ∈ pre, normalizeDomain d = [] ∨
        ∃ e, check (normalizeDomain d) = .error e) →
      normalizeDomain d0 ≠ [] →
      check (normalizeDomain d0) = .ok s0 →
      (∀ d ∈ post, normalizeDomain d = [] ∨
        ∃ e, check (normalizeDomain d) = .error e) →
      CheckSSL check (pre ++ d0 :: post) = ([s0], none)) := by
  refine ⟨?_, ?_, ?_⟩
  · intro pre post d0 e0 hpre hd0 he0 hpost
    have hne : pre ++ d0 :: post ≠ [] := by simp
    rw [CheckSSL, if_neg hne, checkSSLAux_append, checkSSLAux_skip check pre hpre]
    have hpostnil := checkSSLAux_fail_nil check post hpost
    simp [checkSSLAux, hd0, he0, hpostnil]
  · intro domains d0 s0 hmem hd0 hok
    have hne : domains ≠ [] := by
      intro h
      rw [h] at hmem
      exact absurd hmem (List.not_mem_nil d0)
    have hsne : successRecords check domains ≠ [] :=
      successRecords_ne_nil check domains d0 s0 hmem hd0 hok
    refine ⟨?_, hsne⟩
    rcases haux : checkSSLAux check domains with ⟨rs, es⟩
    have hrs : rs = successRecords check domains := by
      have h1 := checkSSLAux_fst check domains
      rw [haux] at h1
      exact h1
    cases rs with
    | nil => exact absurd hrs.symm hsne
    | cons r rs2 =>
      rw [CheckSSL, if_neg hne, haux]
      exact congrArg (fun l => (l, none)) hrs
  · intro pre post d0 s0 hpre hd0 hs0 hpost
    have hne : pre ++ d0 :: post ≠ [] := by simp
    rw [CheckSSL, if_neg hne, checkSSLAux_append]
    have hprenil := checkSSLAux_fail_nil check pre hpre
    have hpostnil := checkSSLAux_fail_nil check post hpost
    simp [checkSSLAux, hd0, hs0, hpostnil, hprenil]

/-- Helper: a produced log entry records the path it was read from. -/
theorem readLogFile_path (fs : List Char → Option (List Char)) (p : List Char)
    (ml : Int) (e : LogEntry) (h : readLogFile fs p ml = .ok (some e)) :
    e.path = p := by
  rw [readLogFile] at h
  split at h
  · exact absurd h (by simp)
  · simp only [] at h
    repeat' split at h
    all_goals simp only [Except.ok.injEq, Option.some.injEq, reduceCtorEq] at h
    all_goals rw [← h]

/-- Helper: every entry `readPaths` produces comes from a non-empty path of
the list whose read succeeded with content. -/
theorem readPaths_mem (fs : List Char → Option (List Char)) (ml : Int) :
    ∀ (ps : List (List Char)) (e : LogEntry), e ∈ readPaths fs ml ps →
      ∃ p ∈ ps, p ≠ [] ∧ readLogFile fs p ml = .ok (some e) := by
  intro ps
  induction ps with
  | nil => intro e he; exact absurd he (by simp [readPaths])
  | cons p ps ih =>
    intro e he
    by_cases hp : p = []
    · rw [readPaths, if_pos hp] at he
      obtain ⟨q, hq, hqe⟩ := ih e he
      exact ⟨q, List.mem_cons_of_mem _ hq, hqe⟩
    · rw [readPaths, if_neg hp] at he
      cases hr : readLogFile fs p ml with
      | error u =>
        rw [hr] at he
        obtain ⟨q, hq, hqe⟩ := ih e he
        exact ⟨q, List.mem_cons_of_mem _ hq, hqe⟩
      | ok o =>
        cases o with
        | none =>
          rw [hr] at he
          obtain ⟨q, hq, hqe⟩ := ih e he
          exact ⟨q, List.mem_cons_of_mem _ hq, hqe⟩
        | some le =>
          rw [hr] at he
          rcases List.mem_cons.mp he with h1 | h2
          · exact ⟨p, List.mem_cons_self p ps, hp, by rw [hr, h1]⟩
          · obtain ⟨q, hq, hqe⟩ := ih e h2
            exact ⟨q, List.mem_cons_of_mem _ hq, hqe⟩

/-- C9: `ReadAndSanitize` always returns a nil error, and a path that is
empty, unreadable, or retains zero lines contributes no entry. -/
theorem readAndSanitize_total (fs : List Char → Option (List Char))
    (paths : List (List Char)) (maxLines : Int) :
    (ReadAndSanitize fs paths maxLines).2 = none ∧
    (∀ p ∈ paths,
      (p = [] ∨ fs p = none ∨
        readLogFile fs p (if maxLines ≤ 0 then 100 else maxLines) = .ok none) →
      ∀ entry ∈ (ReadAndSanitize fs paths maxLines).1, entry.path ≠ p) := by
  constructor
  · by_cases h : paths = [] <;> simp [ReadAndSanitize, h]
  · intro p hp hbad entry hent hpe
    by_cases h : paths = []
    · rw [ReadAndSanitize, if_pos h] at hent
      exact absurd hent (by simp)
    · rw [ReadAndSanitize, if_neg h] at hent
      obtain ⟨q, _, hqne, hqr⟩ := readPaths_mem fs _ paths entry hent
      have hqp : q = p := by rw [← hpe, readLogFile_path fs q _ entry hqr]
      subst hqp
      rcases hbad with h1 | h2 | h3
      · exact hqne h1
      · rw [readLogFile, h2] at hqr
        exact absurd hqr (by simp)
      · rw [h3] at hqr
        exact absurd hqr (by simp)

/-- C8: `handleUpdateConfig` is a partial update: with a well-formed
configuration object in the payload it persists a configuration in which every
field absent from the object keeps its previous value, while present
(well-typed, guarded) fields are replaced; with anything else in the payload
it fails and persists nothing. -/
theorem handleUpdateConfig_merge (payload : List (List Char × JVal))
    (current : Config) :
    (∀ m, jlookup payload (str "config") = some (.obj m) →
      ∃ cfg, handleUpdateConfig payload current = .ok cfg ∧
        (jlookup m (str "api_key") = none → cfg.apiKey = current.apiKey) ∧
        (jlookup m (str "backend_url") = none →
          cfg.backendURL = current.backendURL) ∧
        (jlookup m (str "interval_seconds") = none →
          cfg.intervalSeconds = current.intervalSeconds) ∧
        (jlookup m (str "hostname") = none → cfg.hostname = current.hostname) ∧
        (jlookup m (str "log_paths") = none → cfg.logPaths = current.logPaths) ∧
        (jlookup m (str "ssl_domains") = none →
          cfg.sslDomains = current.sslDomains) ∧
        (jlookup m (str "log_max_lines") = none →
          cfg.logMaxLines = current.logMaxLines) ∧
        (jlookup m (str "ports_to_monitor") = none →
          cfg.portsToMonitor = current.portsToMonitor) ∧
        (∀ v, jlookup m (str "api_key") = some (.s v) → v ≠ [] →
          cfg.apiKey = v) ∧
        (∀ v, jlookup m (str "backend_url") = some (.s v) → v ≠ [] →
          cfg.backendURL = v) ∧
        (∀ q, jlookup m (str "interval_seconds") = some (.n q) → 0 < q →
          cfg.intervalSeconds = ratTrunc q) ∧
        (∀ v, jlookup m (str "hostname") = some (.s v) → cfg.hostname = v) ∧
        (∀ l, jlookup m (str "log_paths") = some (.arr l) →
          cfg.logPaths = jStrings l) ∧
        (∀ l, jlookup m (str "ssl_domains") = some (.arr l) →
          cfg.sslDomains = jStrings l) ∧
        (∀ q, jlookup m (str "log_max_lines") = some (.n q) → 0 < q →
          cfg.logMaxLines = ratTrunc q) ∧
        (∀ l, jlookup m (str "ports_to_monitor") = some (.arr l) →
          cfg.portsToMonitor = jInts l)) ∧
    ((∀ m, jlookup payload (str "config") ≠ some (.obj m)) →
      handleUpdateConfig payload current = .error (str "invalid config payload")) := by
  constructor
  · intro m hm
    refine ⟨_, by rw [handleUpdateConfig, hm], ?_, ?_, ?_, ?_, ?_, ?_, ?_, ?_,
      ?_, ?_, ?_, ?_, ?_, ?_, ?_, ?_⟩
    · intro h
      simp [updPorts, updMaxLines, updSSLDomains, updLogPaths, updHostname,
        updInterval, updBackendURL, updApiKey, newApiKey, h]
    · intro h
      simp [updPorts, updMaxLines, updSSLDomains, updLogPaths, updHostname,
        updInterval, updBackendURL, updApiKey, newBackendURL, h]
    · intro h
      simp [updPorts, updMaxLines, updSSLDomains, updLogPaths, updHostname,
        updInterval, updBackendURL, updApiKey, newInterval, h]
    · intro h
      simp [updPorts, updMaxLines, updSSLDomains, updLogPaths, updHostname,
        updInterval, updBackendURL, updApiKey, newHostname, h]
    · intro h
      simp [updPorts, updMaxLines, updSSLDomains, updLogPaths, updHostname,
        updInterval, updBackendURL, updApiKey, newLogPaths, h]
    · intro h
      simp [updPorts, updMaxLines, updSSLDomains, updLogPaths, updHostname,
        updInterval, updBackendURL, updApiKey, newSSLDomains, h]
    · intro h
      simp [updPorts, updMaxLines, updSSLDomains, updLogPaths, updHostname,
        updInterval, updBackendURL, updApiKey, newMaxLines, h]
    · intro h
      simp [updPorts, updMaxLines, updSSLDomains, updLogPaths, updHostname,
        updInterval, updBackendURL, updApiKey, newPorts, h]
    · intro v h hv
      simp [updPorts, updMaxLines, updSSLDomains, updLogPaths, updHostname,
        updInterval, updBackendURL, updApiKey, newApiKey, h, hv]
    · intro v h hv
      simp [updPorts, updMaxLines, updSSLDomains, updLogPaths, updHostname,
        updInterval, updBackendURL, updApiKey, newBackendURL, h, hv]
    · intro q h hq
      simp [updPorts, updMaxLines, updSSLDomains, updLogPaths, updHostname,
        updInterval, updBackendURL, updApiKey, newInterval, h, hq]
    · intro v h
      simp [updPorts, updMaxLines, updSSLDomains, updLogPaths, updHostname,
        updInterval, updBackendURL, updApiKey, newHostname, h]
    · intro l h
      simp [updPorts, updMaxLines, updSSLDomains, updLogPaths, updHostname,
        updInterval, updBackendURL, updApiKey, newLogPaths, h]
    · intro l h
      simp [updPorts, updMaxLines, updSSLDomains, updLogPaths, updHostname,
        updInterval, updBackendURL, updApiKey, newSSLDomains, h]
    · intro q h hq
      simp [updPorts, updMaxLines, updSSLDomains, updLogPaths, updHostname,
        updInterval, updBackendURL, updApiKey, newMaxLines, h, hq]
    · intro l h
      simp [updPorts, updMaxLines, updSSLDomains, updLogPaths, updHostname,
        updInterval, updBackendURL, updApiKey, newPorts, h]
  · intro hno
    rw [handleUpdateConfig]
    rcases hl : jlookup payload (str "config") with _ | v
    · rfl
    · cases v with
      | obj m => exact absurd hl (hno m)
      | s v => rfl
      | n v => rfl
      | b v => rfl
      | arr v => rfl
      | null => rfl

/-- Helper: the empty filter admits every port. -/
theorem shouldMonitorPort_nil (p : Nat) : shouldMonitorPort p [] = true := rfl

/-- Helper: parsing one line under filter `S` equals the unfiltered parse of
the line passed through the port filter. -/
theorem parseSSLine_filter (env : SysEnv) (S : List Nat) (line : List Char) :
    parseSSLine env S line =
      (parseSSLine env [] line).bind
        (fun pi => if shouldMonitorPort pi.port S then some pi else none) := by
  rw [parseSSLine, parseSSLine]
  cases hl : hasSub (str "LISTEN") line with
  | false => simp [hl]
  | true =>
    cases hf : findFirst ssFullAt line with
    | some r =>
      obtain ⟨port, proc, pid⟩ := r
      cases hm : shouldMonitorPort port S <;>
        simp [hl, hf, hm, shouldMonitorPort_nil]
    | none =>
      cases hs : findFirst ssSimpleAt line with
      | some port =>
        cases hm : shouldMonitorPort port S <;>
          simp [hl, hf, hs, hm, shouldMonitorPort_nil]
      | none => simp [hl, hf, hs]

/-- C5: the Discovery Parser's port filter: an empty monitor list retains
every discovered port; a non-empty list S retains a discovered port exactly
when it is a member of S — the records parsed under S are the unfiltered
records with the ports outside S removed. -/
theorem parseSS_port_filter (env : SysEnv) (output : List Char)
    (S : List Nat) (p : Nat) :
    shouldMonitorPort p [] = true ∧
    (S ≠ [] → (shouldMonitorPort p S = true ↔ p ∈ S)) ∧
    parseSSOutput env output S =
      (parseSSOutput env output []).filter
        (fun pi => shouldMonitorPort pi.port S) := by
  refine ⟨rfl, ?_, ?_⟩
  · intro hS
    rw [shouldMonitorPort, if_neg hS]
    simp [List.any_eq_true]
  · rw [parseSSOutput, parseSSOutput]
    generalize splitOnChar '\n' output = ls
    induction ls with
    | nil => rfl
    | cons l ls ih =>
      rw [List.filterMap_cons, List.filterMap_cons, parseSSLine_filter env S l]
      cases h : parseSSLine env [] l with
      | none => simpa using ih
      | some pi =>
        by_cases hm : shouldMonitorPort pi.port S = true
        · simp [hm, List.filter_cons, ih]
        · simp [hm, List.filter_cons, ih]

/-! ### Redaction engine helper lemmas -/

/-- Helper: the api-key rule fails at a character that is not `a`/`A`. -/
theorem tryKV_api_head_none (c : Char) (cs : List Char)
    (h : ciEqL c 'a' = false) : tryKV matchApiKey (c :: cs) = none := by
  rw [tryKV, matchApiKey, show str "api" = 'a' :: str "pi" from rfl, matchLit]
  simp [h]

/-- Helper: a substring occurrence forces character membership. -/
theorem hasSub_mem : ∀ (s pat : List Char), hasSub pat s = true →
    ∀ c ∈ pat, c ∈ s := by
  intro s
  induction s with
  | nil =>
    intro pat h c hc
    cases pat with
    | nil => exact absurd hc (List.not_mem_nil c)
    | cons x t => exact absurd h (by simp [hasSub, List.isPrefixOf])
  | cons d ds ih =>
    intro pat h c hc
    rw [hasSub, Bool.or_eq_true] at h
    rcases h with h | h
    · have hpfx : pat <+: d :: ds := List.isPrefixOf_iff_prefix.mp h
      exact hpfx.subset hc
    · exact List.mem_cons_of_mem d (ih pat h c hc)

/-- Helper: a nonempty word over a class is no substring of a string whose
characters all avoid the class. -/
theorem hasSub_class_false (p : Char → Bool) (X s : List Char) (hne : X ≠ [])
    (hX : ∀ c ∈ X, p c = true) (hs : ∀ c ∈ s, p c = false) :
    hasSub X s = false := by
  cases X with
  | nil => exact absurd rfl hne
  | cons x t =>
    cases h : hasSub (x :: t) s with
    | false => rfl
    | true =>
      have hx : x ∈ s := hasSub_mem s (x :: t) h x (List.mem_cons_self x t)
      have := hX x (List.mem_cons_self x t)
      rw [hs x hx] at this
      exact absurd this (by simp)

end VPS
